import Mathlib

/-!
# mqtt-gps: configuration store, geofence test and MQTT reconnection

A shallow embedding of `config.h`, `gps.h` and `mqttclient.h`.

* 8- and 16-bit machine integers are natural numbers, reduced `% 256` and
  `% 65536` where the C++ code truncates.
* The Arduino `EEPROM` object is a byte store indexed by address.
* The `PubSubClient` transport and `TinyGPSPlus::distanceBetween` are external
  libraries; they are parameters of the model.
* `CONFIG::read` is declared `uint8_t` and has no `return` statement. What
  follows the end of its body is a parameter of the model (`OffEnd`): the call
  comes back to its caller, or the behaviour is undefined and there is no
  result.
-/

namespace MqttGps

/-! ## config.h -/

/-- EEPROM_CENTER_LAT_ADDR of `config.h`. -/
def EEPROM_CENTER_LAT_ADDR : Nat := 0
/-- EEPROM_CENTER_LAT_SIZE of `config.h`. -/
def EEPROM_CENTER_LAT_SIZE : Nat := 4
/-- EEPROM_CENTER_LON_ADDR expands to `EEPROM_CENTER_LAT_ADDR + EEPROM_CENTER_LAT_SIZE`. -/
def EEPROM_CENTER_LON_ADDR : Nat := EEPROM_CENTER_LAT_ADDR + EEPROM_CENTER_LAT_SIZE
/-- EEPROM_CENTER_LON_SIZE of `config.h`. -/
def EEPROM_CENTER_LON_SIZE : Nat := 4
/-- EEPROM_RADIUS_ADDR expands to `EEPROM_CENTER_LON_ADDR + EEPROM_CENTER_LON_SIZE`. -/
def EEPROM_RADIUS_ADDR : Nat := EEPROM_CENTER_LON_ADDR + EEPROM_CENTER_LON_SIZE
/-- EEPROM_RADIUS_SIZE of `config.h`. -/
def EEPROM_RADIUS_SIZE : Nat := 2
/-- EEPROM_SIZE expands to the sum of the three field sizes. -/
def EEPROM_SIZE : Nat := EEPROM_CENTER_LAT_SIZE + EEPROM_CENTER_LON_SIZE + EEPROM_RADIUS_SIZE

/-- Modelled from the spec: the Arduino `EEPROM` library is not part of the
sources; the spec treats the storage medium as a byte-addressable read/write
capability. `data a` is the byte held at address `a`. -/
structure EEPROMClass where
  data : Nat → Nat

/-- The call `EEPROM.read(addr)`: the stored byte, a `uint8_t`. -/
def EEPROMClass.read (e : EEPROMClass) (addr : Nat) : Nat :=
  e.data addr % 256

/-- The call `EEPROM.write(addr, val)`: `val` is a `uint8_t` argument. -/
def EEPROMClass.write (e : EEPROMClass) (addr val : Nat) : EEPROMClass :=
  { data := fun a => if a = addr then val % 256 else e.data a }

/-- The call `EEPROM.commit()`: every byte write is already in `data`. -/
def EEPROMClass.commit (e : EEPROMClass) : EEPROMClass := e

/-- The call `EEPROM.begin(size)`: the store content is kept. -/
def EEPROMClass.begin (e : EEPROMClass) (_size : Nat) : EEPROMClass := e

/-- The union `COORD`, seen through its member `bytes[4]`:
`bytes i` is `bytes[i]` for `i < 4`. -/
structure COORD where
  bytes : Nat → Nat

/-- The struct `CENTER`. -/
structure CENTER where
  lat : COORD
  lon : COORD

/-- The data members of class `CONFIG`. -/
structure CONFIG where
  center : CENTER
  radius : Nat

/-- Assignment `c.bytes[i] = v`. -/
def COORD.setByte (c : COORD) (i v : Nat) : COORD :=
  { bytes := fun j => if j = i then v else c.bytes j }

/-- The statements of `CONFIG::read` (config.h, lines 103 to 117), as their
effect on the data members: three `for` loops over `i = 0, 1, ...`; the first
two copy store bytes into `center.lat.bytes` and `center.lon.bytes`; the third
runs `radius <<= 8; radius = EEPROM.read(i + EEPROM_RADIUS_ADDR)` on the
`uint16_t` member `radius`, starting from `radius = 0`. -/
def CONFIG.readBody (c : CONFIG) (e : EEPROMClass) : CONFIG :=
  let c1 := (List.range EEPROM_CENTER_LAT_SIZE).foldl
    (fun (k : CONFIG) i =>
      { k with center := { k.center with
          lat := k.center.lat.setByte i (e.read (i + EEPROM_CENTER_LAT_ADDR)) } }) c
  let c2 := (List.range EEPROM_CENTER_LON_SIZE).foldl
    (fun (k : CONFIG) i =>
      { k with center := { k.center with
          lon := k.center.lon.setByte i (e.read (i + EEPROM_CENTER_LON_ADDR)) } }) c1
  (List.range EEPROM_RADIUS_SIZE).foldl
    (fun (k : CONFIG) i =>
      let k1 := { k with radius := (k.radius <<< 8) % 65536 }
      { k1 with radius := e.read (i + EEPROM_RADIUS_ADDR) })
    { c2 with radius := 0 }

/-- What happens when control reaches the end of a function that must return a
value and has no `return` statement, which C++ leaves undefined: either the
call comes back to its caller, with whatever value `v` the result register
holds, or the behaviour of the program from there on is not defined. -/
inductive OffEnd where
  | comesBack (v : Nat)
  | undefined

/-- The method `CONFIG::read`, declared `inline uint8_t read(void)`: its
statements run, then the end of the function is reached with no `return`
statement. The result is the configuration after the statements together with
the `uint8_t` handed to the caller when the call comes back, and `none` when
the behaviour is undefined. -/
def CONFIG.read (c : CONFIG) (e : EEPROMClass) (o : OffEnd) : Option (CONFIG × Nat) :=
  match o with
  | OffEnd.comesBack v => some (c.readBody e, v % 256)
  | OffEnd.undefined => none

/-- The byte writes issued by `CONFIG::save`, in program order, each as
(address, value): four latitude bytes, four longitude bytes, then the radius
bytes `uint8_t b = radius >> (8 * (EEPROM_RADIUS_SIZE - i - 1))`. -/
def CONFIG.saveWrites (c : CONFIG) : List (Nat × Nat) :=
  (List.range EEPROM_CENTER_LAT_SIZE).map
      (fun i => (i + EEPROM_CENTER_LAT_ADDR, c.center.lat.bytes i))
  ++ (List.range EEPROM_CENTER_LON_SIZE).map
      (fun i => (i + EEPROM_CENTER_LON_ADDR, c.center.lon.bytes i))
  ++ (List.range EEPROM_RADIUS_SIZE).map
      (fun i => (i + EEPROM_RADIUS_ADDR,
        (c.radius >>> (8 * (EEPROM_RADIUS_SIZE - i - 1))) % 256))

/-- Runs a sequence of `EEPROM.write` calls. -/
def EEPROMClass.writeAll (e : EEPROMClass) (ws : List (Nat × Nat)) : EEPROMClass :=
  ws.foldl (fun s w => s.write w.1 w.2) e

/-- The method `CONFIG::save`: all byte writes, then `EEPROM.commit()`. -/
def CONFIG.save (c : CONFIG) (e : EEPROMClass) : EEPROMClass :=
  (e.writeAll c.saveWrites).commit

/-- The method `CONFIG::save` cut short after its first `k` byte writes
(no `commit`); the store is left as those writes made it. -/
def CONFIG.saveInterrupted (k : Nat) (c : CONFIG) (e : EEPROMClass) : EEPROMClass :=
  e.writeAll (c.saveWrites.take k)

/-- The method `CONFIG::begin`: `EEPROM.begin(EEPROM_SIZE); read();`, the value
of `read()` being dropped. There is a result only when the call of `read`
comes back. -/
def CONFIG.begin (c : CONFIG) (e : EEPROMClass) (o : OffEnd) :
    Option (CONFIG × EEPROMClass) :=
  let e1 := e.begin EEPROM_SIZE
  (c.read e1 o).map (fun r => (r.1, e1))

/-- The method `CONFIG::getGeoFradius`. -/
def CONFIG.getGeoFradius (c : CONFIG) : Nat := c.radius

/-- A configuration whose eight coordinate bytes are `b` and whose radius is `r`. -/
def constConfig (b r : Nat) : CONFIG :=
  { center := { lat := { bytes := fun _ => b }, lon := { bytes := fun _ => b } }, radius := r }

/-- A store holding the byte `b` at every address. -/
def constStore (b : Nat) : EEPROMClass := { data := fun _ => b }

/-- A store holding `hi` at address 8, `lo` at address 9 and zero elsewhere. -/
def radiusStore (hi lo : Nat) : EEPROMClass :=
  { data := fun a => if a = 8 then hi else if a = 9 then lo else 0 }

/-- The persisted record layout of the spec, as the byte a configuration puts
at offset `a` of the 10-byte record: 4 latitude bytes, 4 longitude bytes, then
the radius as a big-endian `uint16_t`. -/
def recordByte (c : CONFIG) (a : Nat) : Nat :=
  if a < 4 then c.center.lat.bytes a % 256
  else if a < 8 then c.center.lon.bytes (a - 4) % 256
  else if a = 8 then (c.radius / 256) % 256
  else c.radius % 256

/-- Field-by-field comparison of two configurations: the four latitude bytes,
the four longitude bytes and the radius. -/
def CONFIG.sameFields (a b : CONFIG) : Bool :=
  (List.range 4).all (fun i =>
    a.center.lat.bytes i == b.center.lat.bytes i &&
    a.center.lon.bytes i == b.center.lon.bytes i)
  && a.radius == b.radius

/-! ## gps.h -/

/-- A value of the C++ type `double` (a `float` or `uint16_t` operand is
converted to it exactly): a finite value, one of the two infinities, or NaN. -/
inductive Dbl where
  | fin (q : ℚ)
  | pinf
  | ninf
  | nan

/-- The comparison `a < b` on `double` operands (false when either is NaN). -/
def Dbl.lt : Dbl → Dbl → Bool
  | Dbl.nan, _ => false
  | _, Dbl.nan => false
  | Dbl.fin a, Dbl.fin b => decide (a < b)
  | Dbl.fin _, Dbl.pinf => true
  | Dbl.fin _, Dbl.ninf => false
  | Dbl.pinf, _ => false
  | Dbl.ninf, Dbl.ninf => false
  | Dbl.ninf, _ => true

/-- The `double` is a distance that is at least zero (`d >= 0`). -/
def Dbl.nonneg : Dbl → Bool
  | Dbl.fin q => decide (0 ≤ q)
  | Dbl.pinf => true
  | _ => false

/-- Conversion of a `uint16_t` operand to `double`. -/
def Dbl.ofUInt16 (n : Nat) : Dbl := Dbl.fin (n : ℚ)

/-- The data members of class `GPS` read by the geofence test, with the last
decoded position of the `TinyGPSPlus` object (`gps.location.lat()`,
`gps.location.lng()`). -/
structure GPS where
  geoFenceLat : Dbl
  geoFenceLon : Dbl
  geoFenceRad : Nat
  locationLat : Dbl
  locationLng : Dbl

/-- The method `GPS::setGeoFence`. -/
def GPS.setGeoFence (g : GPS) (lat lon : Dbl) (rad : Nat) : GPS :=
  { g with geoFenceLat := lat, geoFenceLon := lon, geoFenceRad := rad }

/-- The local `distance` of `GPS::checkGeofence`; `distanceBetween` is the
library function `TinyGPSPlus::distanceBetween`, taken as a parameter. -/
def GPS.distance (distanceBetween : Dbl → Dbl → Dbl → Dbl → Dbl) (g : GPS) : Dbl :=
  distanceBetween g.geoFenceLat g.geoFenceLon g.locationLat g.locationLng

/-- The method `GPS::checkGeofence`. -/
def GPS.checkGeofence (distanceBetween : Dbl → Dbl → Dbl → Dbl → Dbl) (g : GPS) : Bool :=
  let distance := g.distance distanceBetween
  if Dbl.lt distance (Dbl.ofUInt16 g.geoFenceRad) then true else false

/-- A stand-in for the distance library in examples: 0 m between equal
points, 1112 m otherwise. -/
def sampleDistance (lat1 lon1 lat2 lon2 : Dbl) : Dbl :=
  match lat1, lon1, lat2, lon2 with
  | Dbl.fin a, Dbl.fin b, Dbl.fin c, Dbl.fin d =>
      if a = c ∧ b = d then Dbl.fin 0 else Dbl.fin 1112
  | _, _, _, _ => Dbl.nan

/-- A receiver at (41, -3) with the geofence centred at (40, -3). -/
def sampleGPS (rad : Nat) : GPS :=
  { geoFenceLat := Dbl.fin 40, geoFenceLon := Dbl.fin (-3), geoFenceRad := rad,
    locationLat := Dbl.fin 41, locationLng := Dbl.fin (-3) }

/-! ## mqttclient.h -/

/-- MQTT_TOPIC_LENGTH of `mqttclient.h`. -/
def MQTT_TOPIC_LENGTH : Nat := 64
/-- LED_PIN of `mqttclient.h`. -/
def LED_PIN : Nat := 2
/-- Arduino level `HIGH`. -/
def HIGH : Nat := 1
/-- Arduino level `LOW`. -/
def LOW : Nat := 0

/-- The enum `MQTT_EVENT`. -/
inductive MQTT_EVENT where
  | MQTT_EVENT_NONE
  | MQTT_EVENT_TIMEOUT
  | MQTT_EVENT_CONENCTED
  deriving DecidableEq, Repr

open MQTT_EVENT

/-- The library class `PubSubClient`, taken as a parameter: each member
function maps the transport state to its answer and the next transport state. -/
structure PubSubClient (τ : Type) where
  connected : τ → Bool × τ
  connect : String → τ → Bool × τ
  subscribe : String → τ → Bool × τ
  loop : τ → Bool × τ

/-- A call made by the client to the outside world, with the answer it got. -/
inductive Call where
  | connected (r : Bool)
  | connect (id : String) (r : Bool)
  | subscribe (topic : String)
  | digitalWrite (pin level : Nat)
  | delay (ms : Nat)
  | loop
  deriving DecidableEq, Repr

/-- The data members of class `MQTTCLIENT` used by `reconnect`, `subscribe`
and `handle`; `calls` records the outside calls made so far, oldest first. -/
structure MQTTCLIENT (τ : Type) where
  client : τ
  clientId : String
  subscriptionTopic : String
  calls : List Call

/-- The loop of `MQTTCLIENT::reconnect`, entered with the current value of the
`uint8_t` local `tries`; one unit of `fuel` is spent per evaluation of the loop
condition. Returns the event, the final value of `tries` and the final client. -/
def MQTTCLIENT.reconnectLoop {τ : Type} (P : PubSubClient τ) :
    Nat → Nat → MQTTCLIENT τ → Option (MQTT_EVENT × Nat × MQTTCLIENT τ)
  | 0, _, _ => none
  | fuel + 1, tries, m =>
    let c := P.connected m.client
    let m1 := { m with client := c.2, calls := m.calls ++ [Call.connected c.1] }
    if c.1 then
      some (MQTT_EVENT_NONE, tries, m1)
    else
      let a := P.connect m1.clientId m1.client
      let m2 := { m1 with client := a.2, calls := m1.calls ++ [Call.connect m1.clientId a.1] }
      if a.1 then
        let s := P.subscribe m2.subscriptionTopic m2.client
        let m3 := { m2 with client := s.2,
                            calls := m2.calls ++ [Call.subscribe m2.subscriptionTopic] }
        some (MQTT_EVENT_CONENCTED, tries, m3)
      else
        let tries1 := (tries + 255) % 256
        if tries = 0 then
          some (MQTT_EVENT_TIMEOUT, tries1, m2)
        else
          let m3 := { m2 with calls := m2.calls ++
            [Call.digitalWrite LED_PIN HIGH, Call.delay 2500,
             Call.digitalWrite LED_PIN LOW, Call.delay 2500] }
          MQTTCLIENT.reconnectLoop P fuel tries1 m3

/-- The method `MQTTCLIENT::reconnect`: `uint8_t tries = 6;` then the loop. -/
def MQTTCLIENT.reconnect {τ : Type} (P : PubSubClient τ) (fuel : Nat) (m : MQTTCLIENT τ) :
    Option (MQTT_EVENT × Nat × MQTTCLIENT τ) :=
  MQTTCLIENT.reconnectLoop P fuel 6 m

/-- The method `MQTTCLIENT::subscribe`: `strcpy` into the 64-byte member
`subscriptionTopic`. The argument is the text before the terminating NUL; a
topic whose bytes do not fit together with the terminator has no defined
result. -/
def MQTTCLIENT.subscribe {τ : Type} (topic : String) (m : MQTTCLIENT τ) :
    Option (MQTTCLIENT τ) :=
  if topic.utf8ByteSize < MQTT_TOPIC_LENGTH then some { m with subscriptionTopic := topic }
  else none

/-- The method `MQTTCLIENT::handle`. -/
def MQTTCLIENT.handle {τ : Type} (P : PubSubClient τ) (fuel : Nat) (m : MQTTCLIENT τ) :
    Option (MQTT_EVENT × MQTTCLIENT τ) :=
  let c := P.connected m.client
  let m1 := { m with client := c.2, calls := m.calls ++ [Call.connected c.1] }
  let r : Option (MQTT_EVENT × MQTTCLIENT τ) :=
    if !c.1 then (MQTTCLIENT.reconnect P fuel m1).map (fun x => (x.1, x.2.2))
    else some (MQTT_EVENT_NONE, m1)
  r.map (fun x =>
    let l := P.loop x.2.client
    (x.1, { x.2 with client := l.2, calls := x.2.calls ++ [Call.loop] }))

/-- Number of `client.connect` calls in a call record. -/
def connectAttempts : List Call → Nat
  | [] => 0
  | Call.connect _ _ :: l => connectAttempts l + 1
  | _ :: l => connectAttempts l

/-- Number of `client.subscribe` calls in a call record. -/
def subscribeCalls : List Call → Nat
  | [] => 0
  | Call.subscribe _ :: l => subscribeCalls l + 1
  | _ :: l => subscribeCalls l

/-- Total time, in milliseconds, spent in `delay` in a call record. -/
def totalDelay : List Call → Nat
  | [] => 0
  | Call.delay ms :: l => totalDelay l + ms
  | _ :: l => totalDelay l

/-- Every `connected()` poll and every `connect()` attempt of the record
answered false. -/
def allFailed : List Call → Bool
  | [] => true
  | Call.connected r :: l => !r && allFailed l
  | Call.connect _ r :: l => !r && allFailed l
  | _ :: l => allFailed l

/-- Some `connect()` attempt of the record answered true. -/
def someConnectOk : List Call → Bool
  | [] => false
  | Call.connect _ r :: l => r || someConnectOk l
  | _ :: l => someConnectOk l

/-- The calls of one failed round of the loop of `reconnect`, wait included. -/
def failedRound (id : String) : List Call :=
  [Call.connected false, Call.connect id false,
   Call.digitalWrite LED_PIN HIGH, Call.delay 2500,
   Call.digitalWrite LED_PIN LOW, Call.delay 2500]

/-- The calls of `k` failed rounds in a row. -/
def failedRounds (id : String) : Nat → List Call
  | 0 => []
  | k + 1 => failedRound id ++ failedRounds id k

/-- The calls a client has made beyond those of an earlier client state. -/
def newCalls {τ : Type} (before after : MQTTCLIENT τ) : List Call :=
  after.calls.drop before.calls.length

/-- A transport that is never connected and refuses every connection. -/
def downTransport : PubSubClient Unit :=
  { connected := fun t => (false, t)
    connect := fun _ t => (false, t)
    subscribe := fun _ t => (false, t)
    loop := fun t => (false, t) }

/-- A transport whose state counts the connection attempts still to be
refused: it reports disconnected until a connect succeeds (state 0 means the
next attempt succeeds), after which it stays connected (state `none`). -/
def flakyTransport : PubSubClient (Option Nat) :=
  { connected := fun t => (t.isNone, t)
    connect := fun _ t =>
      match t with
      | none => (true, none)
      | some 0 => (true, none)
      | some (n + 1) => (false, some n)
    subscribe := fun _ t => (true, t)
    loop := fun t => (t.isNone, t) }

/-- A fresh client over a transport in state `t`, no topic recorded yet. -/
def freshClient {τ : Type} (t : τ) : MQTTCLIENT τ :=
  { client := t, clientId := "dev", subscriptionTopic := "", calls := [] }

/-- The fresh client after `subscribe("mqtt-gps/cmd")`. -/
def subscribedClient {τ : Type} (t : τ) : MQTTCLIENT τ :=
  { client := t, clientId := "dev", subscriptionTopic := "mqtt-gps/cmd", calls := [] }

/-- The transport state reached from `t` when the transport is given the calls
of a record, one after the other (pin writes and delays do not reach it). -/
def PubSubClient.replay {τ : Type} (P : PubSubClient τ) : List Call → τ → τ
  | [], t => t
  | Call.connected _ :: l, t => P.replay l (P.connected t).2
  | Call.connect id _ :: l, t => P.replay l (P.connect id t).2
  | Call.subscribe topic :: l, t => P.replay l (P.subscribe topic t).2
  | Call.loop :: l, t => P.replay l (P.loop t).2
  | Call.digitalWrite _ _ :: l, t => P.replay l t
  | Call.delay _ :: l, t => P.replay l t

/-- Every answer written in a record is the answer the transport gives to that
call in the state the earlier calls of the record have left, starting from `t`. -/
def PubSubClient.answers {τ : Type} (P : PubSubClient τ) : List Call → τ → Bool
  | [], _ => true
  | Call.connected r :: l, t => (r == (P.connected t).1) && P.answers l (P.connected t).2
  | Call.connect id r :: l, t => (r == (P.connect id t).1) && P.answers l (P.connect id t).2
  | Call.subscribe topic :: l, t => P.answers l (P.subscribe topic t).2
  | Call.loop :: l, t => P.answers l (P.loop t).2
  | Call.digitalWrite _ _ :: l, t => P.answers l t
  | Call.delay _ :: l, t => P.answers l t

/-- A transport that keeps the list of topics it was asked to subscribe to,
next to the number of connection attempts it still refuses (`none` once
connected). -/
def recordingTransport : PubSubClient (Option Nat × List String) :=
  { connected := fun t => (t.1.isNone, t)
    connect := fun _ t =>
      match t.1 with
      | none => (true, t)
      | some 0 => (true, (none, t.2))
      | some (n + 1) => (false, (some n, t.2))
    subscribe := fun topic t => (true, (t.1, t.2 ++ [topic]))
    loop := fun t => (t.1.isNone, t) }

/-- The client left by a `handle` call on the transport that is always down. -/
def timedOutClient : MQTTCLIENT Unit :=
  ((MQTTCLIENT.handle downTransport 7 (freshClient ())).getD
    (MQTT_EVENT_NONE, freshClient ())).2

/-! ## Theorems: config.h -/

theorem read_lat (c : CONFIG) (e : EEPROMClass) (i : Nat) (hi : i < 4) :
    (c.readBody e).center.lat.bytes i = e.data i % 256 := by
  have h : i = 0 ∨ i = 1 ∨ i = 2 ∨ i = 3 := by omega
  rcases h with h | h | h | h <;> subst h <;> rfl

theorem read_lon (c : CONFIG) (e : EEPROMClass) (i : Nat) (hi : i < 4) :
    (c.readBody e).center.lon.bytes i = e.data (i + 4) % 256 := by
  have h : i = 0 ∨ i = 1 ∨ i = 2 ∨ i = 3 := by omega
  rcases h with h | h | h | h <;> subst h <;> rfl

theorem read_radius (c : CONFIG) (e : EEPROMClass) :
    (c.readBody e).radius = e.data 9 % 256 := rfl

theorem save_data (c : CONFIG) (e : EEPROMClass) (a : Nat) :
    (c.save e).data a =
      if a < 4 then c.center.lat.bytes a % 256
      else if a < 8 then c.center.lon.bytes (a - 4) % 256
      else if a = 8 then (c.radius >>> 8) % 256 % 256
      else if a = 9 then c.radius % 256 % 256
      else e.data a := by
  simp only [CONFIG.save, EEPROMClass.commit, CONFIG.saveWrites, EEPROMClass.writeAll,
    EEPROMClass.write, EEPROM_CENTER_LAT_SIZE, EEPROM_CENTER_LON_SIZE, EEPROM_RADIUS_SIZE,
    EEPROM_CENTER_LAT_ADDR, EEPROM_CENTER_LON_ADDR, EEPROM_RADIUS_ADDR,
    List.range, List.range.loop, List.map, List.foldl, List.append, List.cons_append,
    List.nil_append]
  by_cases h0 : a = 0
  · subst h0; simp
  by_cases h1 : a = 1
  · subst h1; simp
  by_cases h2 : a = 2
  · subst h2; simp
  by_cases h3 : a = 3
  · subst h3; simp
  by_cases h4 : a = 4
  · subst h4; simp
  by_cases h5 : a = 5
  · subst h5; simp
  by_cases h6 : a = 6
  · subst h6; simp
  by_cases h7 : a = 7
  · subst h7; simp
  by_cases h8 : a = 8
  · subst h8; simp
  by_cases h9 : a = 9
  · subst h9; simp
  have g1 : ¬ a < 4 := by omega
  have g2 : ¬ a < 8 := by omega
  simp [h0, h1, h2, h3, h4, h5, h6, h7, h8, h9, g1, g2]

theorem saveWrites_eq (c : CONFIG) :
    c.saveWrites =
      [(0, c.center.lat.bytes 0), (1, c.center.lat.bytes 1), (2, c.center.lat.bytes 2),
       (3, c.center.lat.bytes 3), (4, c.center.lon.bytes 0), (5, c.center.lon.bytes 1),
       (6, c.center.lon.bytes 2), (7, c.center.lon.bytes 3),
       (8, (c.radius >>> 8) % 256), (9, (c.radius >>> 0) % 256)] := rfl

theorem saveInterrupted_data (k : Nat) (hk : k ≤ 10) (c : CONFIG) (e : EEPROMClass) (a : Nat) :
    (c.saveInterrupted k e).data a = if a < k then (c.save e).data a else e.data a := by
  rw [save_data]
  simp only [CONFIG.saveInterrupted, saveWrites_eq]
  by_cases ha : a < 10
  · interval_cases a <;> interval_cases k <;>
      simp [List.take, EEPROMClass.writeAll, List.foldl, EEPROMClass.write]
  · have h0 : a ≠ 0 := by omega
    have h1 : a ≠ 1 := by omega
    have h2 : a ≠ 2 := by omega
    have h3 : a ≠ 3 := by omega
    have h4 : a ≠ 4 := by omega
    have h5 : a ≠ 5 := by omega
    have h6 : a ≠ 6 := by omega
    have h7 : a ≠ 7 := by omega
    have h8 : a ≠ 8 := by omega
    have h9 : a ≠ 9 := by omega
    have g1 : ¬ a < 4 := by omega
    have g2 : ¬ a < 8 := by omega
    interval_cases k <;>
      simp [List.take, EEPROMClass.writeAll, List.foldl, EEPROMClass.write,
        h0, h1, h2, h3, h4, h5, h6, h7, h8, h9, g1, g2]

theorem save_data_record (c : CONFIG) (e : EEPROMClass) (a : Nat) (ha : a < 10) :
    (c.save e).data a = recordByte c a := by
  rw [save_data]
  unfold recordByte
  have h8 : c.radius >>> 8 = c.radius / 256 := by
    rw [Nat.shiftRight_eq_div_pow]
  by_cases h1 : a < 4
  · simp [h1]
  · by_cases h2 : a < 8
    · simp [h1, h2]
    · by_cases h3 : a = 8
      · simp [h3, h8]
      · have h4 : a = 9 := by omega
        simp [h4]

theorem recordByte_lt (c : CONFIG) (a : Nat) : recordByte c a < 256 := by
  unfold recordByte
  split_ifs <;> exact Nat.mod_lt _ (by decide)

/-- C1, at the failing input: saving a configuration of radius 256 over any
store and reading the store back never gives radius 256: when the call of
`read` comes back the radius is 0, and otherwise there is no result; in
general the radius read back is the saved radius modulo 256. -/
theorem save_read_radius_low_byte (c0 : CONFIG) (e : EEPROMClass) :
    (∀ o : OffEnd, (c0.read ((constConfig 7 256).save e) o).map
        (fun r => r.1.getGeoFradius) ≠ some 256)
    ∧ (∀ v : Nat, (c0.read ((constConfig 7 256).save e) (OffEnd.comesBack v)).map
        (fun r => r.1.getGeoFradius) = some 0)
    ∧ (constConfig 7 256).getGeoFradius = 256
    ∧ ∀ (c : CONFIG) (v : Nat), (c0.read (c.save e) (OffEnd.comesBack v)).map
        (fun r => r.1.getGeoFradius) = some (c.radius % 256) := by
  have hgen : ∀ (c : CONFIG) (v : Nat), (c0.read (c.save e) (OffEnd.comesBack v)).map
      (fun r => r.1.getGeoFradius) = some (c.radius % 256) := by
    intro c v
    simp [CONFIG.read, CONFIG.getGeoFradius, read_radius, save_data]
  refine ⟨?_, ?_, rfl, hgen⟩
  · intro o
    cases o with
    | comesBack v => rw [hgen]; decide
    | undefined => simp [CONFIG.read]
  · intro v
    rw [hgen]
    rfl

/-- C9, at the failing input: on a store whose bytes at offsets 8 and 9 are
1 and 0 (big-endian 256), `CONFIG::read` never sets the radius to 256: when the
call comes back the radius is 0, and otherwise there is no result; in general
the radius is set to the byte at offset 9 alone. -/
theorem read_radius_ignores_high_byte (c : CONFIG) :
    (∀ o : OffEnd, (c.read (radiusStore 1 0) o).map (fun r => r.1.radius) ≠ some 256)
    ∧ (∀ v : Nat, (c.read (radiusStore 1 0) (OffEnd.comesBack v)).map
        (fun r => r.1.radius) = some 0)
    ∧ 256 * (radiusStore 1 0).data 8 + (radiusStore 1 0).data 9 = 256
    ∧ ∀ (e : EEPROMClass) (v : Nat), (c.read e (OffEnd.comesBack v)).map
        (fun r => r.1.radius) = some (e.data 9 % 256) := by
  refine ⟨?_, fun _ => rfl, rfl, fun _ _ => rfl⟩
  intro o
  cases o with
  | comesBack v => simp [CONFIG.read, read_radius, radiusStore]
  | undefined => simp [CONFIG.read]

/-- C6, counterexample: on an erased store (every byte 0xFF) `CONFIG::begin`
does not yield the zero configuration, whether or not the call of `read`
comes back; when it does, the radius is 255. -/
theorem begin_erased_not_zero :
    ((constConfig 0 0).begin (constStore 255) (OffEnd.comesBack 0)).map
        (fun r => r.1.getGeoFradius) = some 255
    ∧ ∀ o : OffEnd, ¬ ∃ r, (constConfig 0 0).begin (constStore 255) o = some r
        ∧ r.1.getGeoFradius = 0
        ∧ ∀ i, i < 4 → r.1.center.lat.bytes i = 0 ∧ r.1.center.lon.bytes i = 0 := by
  refine ⟨rfl, ?_⟩
  intro o
  cases o with
  | comesBack v =>
    rintro ⟨r, hr, h0, _⟩
    simp only [CONFIG.begin, CONFIG.read, Option.map_some', Option.some.injEq] at hr
    subst hr
    exact absurd h0 (by decide)
  | undefined =>
    rintro ⟨r, hr, _⟩
    simp [CONFIG.begin, CONFIG.read] at hr

/-- C6, amended: when the ten record bytes are all 0xFF and the call of `read`
made by `CONFIG::begin` comes back to it, the configuration holds the stored
bytes as they are: every latitude and longitude byte is 0xFF and
`getGeoFradius()` is not zero. When the call does not come back, `begin`
yields no configuration. -/
theorem begin_erased (c : CONFIG) (e : EEPROMClass) (o : OffEnd)
    (h : ∀ a, a < EEPROM_SIZE → e.data a = 255)
    (ho : ∃ v, o = OffEnd.comesBack v) :
    (∃ r, c.begin e o = some r
      ∧ r.1.getGeoFradius ≠ 0
      ∧ ∀ i, i < 4 → r.1.center.lat.bytes i = 255 ∧ r.1.center.lon.bytes i = 255)
    ∧ c.begin e OffEnd.undefined = none := by
  obtain ⟨v, rfl⟩ := ho
  have h9 : e.data 9 = 255 := h 9 (by decide)
  refine ⟨⟨(c.readBody e, e), rfl, ?_, ?_⟩, rfl⟩
  · simp [CONFIG.getGeoFradius, read_radius, h9]
  · intro i hi
    have hl : e.data i = 255 := h i (by simp only [EEPROM_SIZE, EEPROM_CENTER_LAT_SIZE,
      EEPROM_CENTER_LON_SIZE, EEPROM_RADIUS_SIZE]; omega)
    have hr : e.data (i + 4) = 255 := h (i + 4) (by simp only [EEPROM_SIZE,
      EEPROM_CENTER_LAT_SIZE, EEPROM_CENTER_LON_SIZE, EEPROM_RADIUS_SIZE]; omega)
    simp [read_lat _ _ i hi, read_lon _ _ i hi, hl, hr]

theorem begin_erased_witness :
    (∀ a, a < EEPROM_SIZE → (constStore 255).data a = 255)
    ∧ (∃ v, OffEnd.comesBack 0 = OffEnd.comesBack v)
    ∧ (∃ r, (constConfig 0 0).begin (constStore 255) (OffEnd.comesBack 0) = some r
      ∧ r.1.getGeoFradius ≠ 0
      ∧ ∀ i, i < 4 → r.1.center.lat.bytes i = 255 ∧ r.1.center.lon.bytes i = 255) :=
  ⟨fun _ _ => rfl, ⟨0, rfl⟩,
   (begin_erased (constConfig 0 0) (constStore 255) (OffEnd.comesBack 0)
      (fun _ _ => rfl) ⟨0, rfl⟩).1⟩

/-- C5, counterexample: with the all-zero configuration stored, a save of the
configuration of bytes 1 and radius 1 that stops after 4 byte writes leaves a
store that reads back (the call of `read` coming back) as neither the old nor
the new configuration: new latitude, old longitude and radius. -/
theorem interrupted_save_mixes :
    ((constConfig 0 0).read
        ((constConfig 1 1).saveInterrupted 4 ((constConfig 0 0).save (constStore 0)))
        (OffEnd.comesBack 0)).bind
      (fun r => ((constConfig 0 0).read ((constConfig 0 0).save (constStore 0))
        (OffEnd.comesBack 0)).map (fun r0 => r.1.sameFields r0.1)) = some false
    ∧ ((constConfig 0 0).read
        ((constConfig 1 1).saveInterrupted 4 ((constConfig 0 0).save (constStore 0)))
        (OffEnd.comesBack 0)).bind
      (fun r => ((constConfig 0 0).read
        ((constConfig 1 1).save ((constConfig 0 0).save (constStore 0)))
        (OffEnd.comesBack 0)).map (fun r1 => r.1.sameFields r1.1)) = some false := by
  decide

/-- C5, amended: a save of `new` over the stored `old`, interrupted after its
first `k` byte writes, leaves at each record offset below `k` the byte of the
new configuration and from offset `k` on the byte of the old one, and touches
nothing outside the record. Read back (the call of `read` coming back), each
latitude and longitude byte is the new one exactly when its write was made,
and the radius is taken from the byte at offset 9, new only for `k = 10`. -/
theorem interrupted_save_bytes (old new c0 : CONFIG) (e : EEPROMClass) (k v : Nat)
    (hk : k ≤ 10) :
    (∀ a, a < 10 → (new.saveInterrupted k (old.save e)).data a =
        if a < k then recordByte new a else recordByte old a)
    ∧ (∀ a, 10 ≤ a → (new.saveInterrupted k (old.save e)).data a = e.data a)
    ∧ ∃ r, c0.read (new.saveInterrupted k (old.save e)) (OffEnd.comesBack v)
          = some (r, v % 256)
        ∧ (∀ i, i < 4 → r.center.lat.bytes i =
            if i < k then new.center.lat.bytes i % 256 else old.center.lat.bytes i % 256)
        ∧ (∀ i, i < 4 → r.center.lon.bytes i =
            if i + 4 < k then new.center.lon.bytes i % 256 else old.center.lon.bytes i % 256)
        ∧ r.radius = if k = 10 then new.radius % 256 else old.radius % 256 := by
  have hrec : ∀ a, a < 10 → (new.saveInterrupted k (old.save e)).data a =
      if a < k then recordByte new a else recordByte old a := by
    intro a ha
    rw [saveInterrupted_data k hk]
    split_ifs
    · exact save_data_record _ _ a ha
    · exact save_data_record _ _ a ha
  refine ⟨hrec, ?_, _, rfl, ?_, ?_, ?_⟩
  · intro a ha
    rw [saveInterrupted_data k hk, if_neg (by omega), save_data]
    have h1 : ¬ a < 4 := by omega
    have h2 : ¬ a < 8 := by omega
    have h3 : a ≠ 8 := by omega
    have h4 : a ≠ 9 := by omega
    simp [h1, h2, h3, h4]
  · intro i hi
    rw [read_lat _ _ i hi, hrec i (by omega)]
    have hlt : i < 4 := hi
    split_ifs <;> simp [recordByte, hlt]
  · intro i hi
    rw [read_lon _ _ i hi, hrec (i + 4) (by omega)]
    have h1 : ¬ i + 4 < 4 := by omega
    have h2 : i + 4 < 8 := by omega
    split_ifs <;> simp [recordByte, h1, h2]
  · rw [read_radius, hrec 9 (by decide)]
    by_cases h : k = 10
    · simp [h, recordByte]
    · have h9 : ¬ 9 < k := by omega
      simp [h, h9, recordByte]

theorem interrupted_save_bytes_witness :
    (4 : Nat) ≤ 10
    ∧ ∃ r, (constConfig 0 0).read
          ((constConfig 1 1).saveInterrupted 4 ((constConfig 0 0).save (constStore 0)))
          (OffEnd.comesBack 0) = some (r, 0 % 256)
        ∧ (∀ i, i < 4 → r.center.lat.bytes i =
            if i < 4 then (constConfig 1 1).center.lat.bytes i % 256
            else (constConfig 0 0).center.lat.bytes i % 256)
        ∧ (∀ i, i < 4 → r.center.lon.bytes i =
            if i + 4 < 4 then (constConfig 1 1).center.lon.bytes i % 256
            else (constConfig 0 0).center.lon.bytes i % 256)
        ∧ r.radius = if 4 = 10 then (constConfig 1 1).radius % 256
            else (constConfig 0 0).radius % 256 :=
  ⟨by decide,
   (interrupted_save_bytes (constConfig 0 0) (constConfig 1 1) (constConfig 0 0)
      (constStore 0) 4 0 (by decide)).2.2⟩

/-! ## Theorems: gps.h -/

/-- C4: for a computed distance `d >= 0`, `GPS::checkGeofence` returns true
exactly when `d` is finite and strictly below the radius; a distance equal to
the radius gives false. -/
theorem checkGeofence_strict (distanceBetween : Dbl → Dbl → Dbl → Dbl → Dbl) (g : GPS)
    (hd : (g.distance distanceBetween).nonneg = true) :
    (g.checkGeofence distanceBetween = true ↔
        ∃ q : ℚ, g.distance distanceBetween = Dbl.fin q ∧ q < (g.geoFenceRad : ℚ))
    ∧ (g.distance distanceBetween = Dbl.ofUInt16 g.geoFenceRad →
        g.checkGeofence distanceBetween = false) := by
  unfold GPS.checkGeofence
  cases hq : g.distance distanceBetween with
  | fin q =>
    simp only [Dbl.lt, Dbl.ofUInt16, decide_eq_true_eq, Dbl.fin.injEq, ite_eq_left_iff,
      Bool.not_eq_true, decide_eq_false_iff_not, not_lt, ite_eq_right_iff]
    refine ⟨⟨fun h => ⟨q, rfl, ?_⟩, ?_⟩, ?_⟩
    · by_contra hn
      exact absurd (h (not_lt.mp hn)) (by decide)
    · rintro ⟨q1, h1, h2⟩ h3
      subst h1
      exact absurd h2 (not_lt.mpr h3)
    · intro h1 h2
      exact absurd h2 (by rw [h1]; exact lt_irrefl _)
  | pinf => simp [Dbl.lt, Dbl.ofUInt16]
  | ninf => rw [hq] at hd; simp [Dbl.nonneg] at hd
  | nan => simp [Dbl.lt, Dbl.ofUInt16]

theorem checkGeofence_strict_witness :
    ((sampleGPS 1112).distance sampleDistance).nonneg = true
    ∧ ((sampleGPS 1112).distance sampleDistance = Dbl.ofUInt16 (sampleGPS 1112).geoFenceRad →
        (sampleGPS 1112).checkGeofence sampleDistance = false) :=
  ⟨by decide, (checkGeofence_strict sampleDistance (sampleGPS 1112) (by decide)).2⟩

/-- C7, counterexample: with radius 0 the result of `GPS::checkGeofence` is
the very value it gives for a position outside a geofence of radius 100
(distance 1112 m). -/
theorem disabled_same_as_outside :
    (((sampleGPS 100).setGeoFence (Dbl.fin 40) (Dbl.fin (-3)) 0).checkGeofence sampleDistance
      = (sampleGPS 100).checkGeofence sampleDistance)
    ∧ ((sampleGPS 100).setGeoFence (Dbl.fin 40) (Dbl.fin (-3)) 0).geoFenceRad = 0
    ∧ 0 < (sampleGPS 100).geoFenceRad
    ∧ Dbl.lt ((sampleGPS 100).distance sampleDistance)
        (Dbl.ofUInt16 (sampleGPS 100).geoFenceRad) = false := by
  decide

/-- C7, amended: once the geofence is set with radius 0, `GPS::checkGeofence`
returns false for every fix whose computed distance is not below zero,
whatever the coordinates; this is the same value it returns for any position
outside a geofence, so the result does not tell the two apart. -/
theorem checkGeofence_radius_zero (distanceBetween : Dbl → Dbl → Dbl → Dbl → Dbl)
    (g : GPS) (lat lon : Dbl)
    (hd : Dbl.lt ((g.setGeoFence lat lon 0).distance distanceBetween) (Dbl.fin 0) = false) :
    (g.setGeoFence lat lon 0).checkGeofence distanceBetween = false
    ∧ ∀ g1 : GPS,
        Dbl.lt (g1.distance distanceBetween) (Dbl.ofUInt16 g1.geoFenceRad) = false →
        g1.checkGeofence distanceBetween
          = (g.setGeoFence lat lon 0).checkGeofence distanceBetween := by
  have h0 : (g.setGeoFence lat lon 0).checkGeofence distanceBetween = false := by
    unfold GPS.checkGeofence
    have hz : Dbl.ofUInt16 (g.setGeoFence lat lon 0).geoFenceRad = Dbl.fin 0 := by
      simp [GPS.setGeoFence, Dbl.ofUInt16]
    simp [hz, hd]
  refine ⟨h0, ?_⟩
  intro g1 h1
  rw [h0]
  unfold GPS.checkGeofence
  simp [h1]

theorem checkGeofence_radius_zero_witness :
    Dbl.lt (((sampleGPS 100).setGeoFence (Dbl.fin 40) (Dbl.fin (-3)) 0).distance
        sampleDistance) (Dbl.fin 0) = false
    ∧ ((sampleGPS 100).setGeoFence (Dbl.fin 40) (Dbl.fin (-3)) 0).checkGeofence
        sampleDistance = false :=
  ⟨by decide,
   (checkGeofence_radius_zero sampleDistance (sampleGPS 100) (Dbl.fin 40) (Dbl.fin (-3))
      (by decide)).1⟩

/-! ## Theorems: mqttclient.h -/

theorem connectAttempts_append (a b : List Call) :
    connectAttempts (a ++ b) = connectAttempts a + connectAttempts b := by
  induction a with
  | nil => simp [connectAttempts]
  | cons x l ih => cases x <;> simp [connectAttempts, ih, Nat.add_right_comm]

theorem subscribeCalls_append (a b : List Call) :
    subscribeCalls (a ++ b) = subscribeCalls a + subscribeCalls b := by
  induction a with
  | nil => simp [subscribeCalls]
  | cons x l ih => cases x <;> simp [subscribeCalls, ih, Nat.add_right_comm]

theorem totalDelay_append (a b : List Call) :
    totalDelay (a ++ b) = totalDelay a + totalDelay b := by
  induction a with
  | nil => simp [totalDelay]
  | cons x l ih => cases x <;> simp [totalDelay, ih, Nat.add_right_comm]

theorem allFailed_append (a b : List Call) :
    allFailed (a ++ b) = (allFailed a && allFailed b) := by
  induction a with
  | nil => simp [allFailed]
  | cons x l ih => cases x <;> simp [allFailed, ih, Bool.and_assoc]

theorem someConnectOk_append (a b : List Call) :
    someConnectOk (a ++ b) = (someConnectOk a || someConnectOk b) := by
  induction a with
  | nil => simp [someConnectOk]
  | cons x l ih => cases x <;> simp [someConnectOk, ih, Bool.or_assoc]

theorem connectAttempts_failedRounds (id : String) (k : Nat) :
    connectAttempts (failedRounds id k) = k := by
  induction k with
  | zero => rfl
  | succ k ih =>
    simp [failedRounds, connectAttempts_append, ih, failedRound, connectAttempts]

theorem subscribeCalls_failedRounds (id : String) (k : Nat) :
    subscribeCalls (failedRounds id k) = 0 := by
  induction k with
  | zero => rfl
  | succ k ih => simp [failedRounds, subscribeCalls_append, ih, failedRound, subscribeCalls]

theorem totalDelay_failedRounds (id : String) (k : Nat) :
    totalDelay (failedRounds id k) = 5000 * k := by
  induction k with
  | zero => rfl
  | succ k ih =>
    simp [failedRounds, totalDelay_append, ih, failedRound, totalDelay]
    omega

theorem allFailed_failedRounds (id : String) (k : Nat) :
    allFailed (failedRounds id k) = true := by
  induction k with
  | zero => rfl
  | succ k ih => simp [failedRounds, allFailed_append, ih, failedRound, allFailed]

theorem someConnectOk_failedRounds (id : String) (k : Nat) :
    someConnectOk (failedRounds id k) = false := by
  induction k with
  | zero => rfl
  | succ k ih => simp [failedRounds, someConnectOk_append, ih, failedRound, someConnectOk]

theorem reconnectLoop_succ {τ : Type} (P : PubSubClient τ) (fuel tries : Nat)
    (m : MQTTCLIENT τ) :
    MQTTCLIENT.reconnectLoop P (fuel + 1) tries m =
      if (P.connected m.client).1 = true then
        some (MQTT_EVENT_NONE, tries,
          { m with client := (P.connected m.client).2,
                   calls := m.calls ++ [Call.connected (P.connected m.client).1] })
      else if (P.connect m.clientId (P.connected m.client).2).1 = true then
        some (MQTT_EVENT_CONENCTED, tries,
          { m with
            client := (P.subscribe m.subscriptionTopic
              (P.connect m.clientId (P.connected m.client).2).2).2,
            calls := m.calls ++ [Call.connected (P.connected m.client).1] ++
              [Call.connect m.clientId (P.connect m.clientId (P.connected m.client).2).1] ++
              [Call.subscribe m.subscriptionTopic] })
      else if tries = 0 then
        some (MQTT_EVENT_TIMEOUT, (tries + 255) % 256,
          { m with
            client := (P.connect m.clientId (P.connected m.client).2).2,
            calls := m.calls ++ [Call.connected (P.connected m.client).1] ++
              [Call.connect m.clientId (P.connect m.clientId (P.connected m.client).2).1] })
      else
        MQTTCLIENT.reconnectLoop P fuel ((tries + 255) % 256)
          { m with
            client := (P.connect m.clientId (P.connected m.client).2).2,
            calls := m.calls ++ [Call.connected (P.connected m.client).1] ++
              [Call.connect m.clientId (P.connect m.clientId (P.connected m.client).2).1] ++
              [Call.digitalWrite LED_PIN HIGH, Call.delay 2500,
               Call.digitalWrite LED_PIN LOW, Call.delay 2500] } := rfl

/-- The three ways the loop of `reconnect` ends when entered with `tries = t`:
after `k ≤ t` failed rounds the transport reports connected, or a connect
succeeds and the topic is subscribed, or, after exactly `t` failed rounds, one
more connect fails and the post-decrement of `tries = 0` leaves 255. -/
theorem reconnectLoop_spec {τ : Type} (P : PubSubClient τ) :
    ∀ (t fuel : Nat) (m : MQTTCLIENT τ), t < fuel → t < 256 →
      ∃ ev t1 m1, MQTTCLIENT.reconnectLoop P fuel t m = some (ev, t1, m1)
        ∧ m1.clientId = m.clientId ∧ m1.subscriptionTopic = m.subscriptionTopic
        ∧ ∃ k, k ≤ t ∧
          ((ev = MQTT_EVENT_NONE ∧ t1 + k = t
              ∧ m1.calls = m.calls ++ (failedRounds m.clientId k ++ [Call.connected true]))
           ∨ (ev = MQTT_EVENT_CONENCTED ∧ t1 + k = t
              ∧ m1.calls = m.calls ++ (failedRounds m.clientId k ++
                  [Call.connected false, Call.connect m.clientId true,
                   Call.subscribe m.subscriptionTopic]))
           ∨ (ev = MQTT_EVENT_TIMEOUT ∧ k = t ∧ t1 = 255
              ∧ m1.calls = m.calls ++ (failedRounds m.clientId k ++
                  [Call.connected false, Call.connect m.clientId false]))) := by
  intro t
  induction t with
  | zero =>
    intro fuel m hf _
    obtain ⟨f, rfl⟩ : ∃ f, fuel = f + 1 := ⟨fuel - 1, by omega⟩
    rw [reconnectLoop_succ]
    by_cases hc : (P.connected m.client).1 = true
    · rw [if_pos hc]
      exact ⟨_, _, _, rfl, rfl, rfl, 0, le_refl _,
        Or.inl ⟨rfl, rfl, by simp [failedRounds, hc]⟩⟩
    · rw [if_neg hc]
      by_cases ha : (P.connect m.clientId (P.connected m.client).2).1 = true
      · rw [if_pos ha]
        simp only [Bool.not_eq_true] at hc
        exact ⟨_, _, _, rfl, rfl, rfl, 0, le_refl _,
          Or.inr (Or.inl ⟨rfl, rfl, by simp [failedRounds, hc, ha]⟩)⟩
      · rw [if_neg ha, if_pos rfl]
        simp only [Bool.not_eq_true] at hc ha
        exact ⟨_, _, _, rfl, rfl, rfl, 0, le_refl _,
          Or.inr (Or.inr ⟨rfl, rfl, rfl, by simp [failedRounds, hc, ha]⟩)⟩
  | succ t ih =>
    intro fuel m hf ht
    obtain ⟨f, rfl⟩ : ∃ f, fuel = f + 1 := ⟨fuel - 1, by omega⟩
    rw [reconnectLoop_succ]
    by_cases hc : (P.connected m.client).1 = true
    · rw [if_pos hc]
      exact ⟨_, _, _, rfl, rfl, rfl, 0, Nat.zero_le _,
        Or.inl ⟨rfl, rfl, by simp [failedRounds, hc]⟩⟩
    · rw [if_neg hc]
      by_cases ha : (P.connect m.clientId (P.connected m.client).2).1 = true
      · rw [if_pos ha]
        simp only [Bool.not_eq_true] at hc
        exact ⟨_, _, _, rfl, rfl, rfl, 0, Nat.zero_le _,
          Or.inr (Or.inl ⟨rfl, rfl, by simp [failedRounds, hc, ha]⟩)⟩
      · have hmod : (t + 1 + 255) % 256 = t := by omega
        rw [if_neg ha, if_neg (Nat.succ_ne_zero t), hmod]
        obtain ⟨ev, t1, m1, hrun, hid, htop, k, hk, hshape⟩ := ih f
          { m with
            client := (P.connect m.clientId (P.connected m.client).2).2,
            calls := m.calls ++ [Call.connected (P.connected m.client).1] ++
              [Call.connect m.clientId (P.connect m.clientId (P.connected m.client).2).1] ++
              [Call.digitalWrite LED_PIN HIGH, Call.delay 2500,
               Call.digitalWrite LED_PIN LOW, Call.delay 2500] }
          (by omega) (by omega)
        refine ⟨ev, t1, m1, hrun, hid, htop, k + 1, by omega, ?_⟩
        simp only [Bool.not_eq_true] at hc ha
        rcases hshape with ⟨h1, h2, h3⟩ | ⟨h1, h2, h3⟩ | ⟨h1, h2, h3, h4⟩
        · exact Or.inl ⟨h1, by omega, by rw [h3]; simp [failedRounds, failedRound, hc, ha]⟩
        · exact Or.inr (Or.inl ⟨h1, by omega,
            by rw [h3]; simp [failedRounds, failedRound, hc, ha]⟩)
        · exact Or.inr (Or.inr ⟨h1, by omega, h3,
            by rw [h4]; simp [failedRounds, failedRound, hc, ha]⟩)


theorem newCalls_append {τ : Type} (m m1 : MQTTCLIENT τ) (l : List Call)
    (h : m1.calls = m.calls ++ l) : newCalls m m1 = l := by
  simp [newCalls, h]

/-- The ways a call of `handle` ends, given fuel for seven rounds of the loop. -/
theorem handle_spec {τ : Type} (P : PubSubClient τ) (fuel : Nat) (m : MQTTCLIENT τ)
    (hf : 7 ≤ fuel) :
    ∃ ev m1, MQTTCLIENT.handle P fuel m = some (ev, m1)
      ∧ m1.clientId = m.clientId ∧ m1.subscriptionTopic = m.subscriptionTopic
      ∧ ((ev = MQTT_EVENT_NONE ∧ newCalls m m1 = [Call.connected true, Call.loop])
         ∨ ∃ k, k ≤ 6 ∧
          ((ev = MQTT_EVENT_NONE
              ∧ newCalls m m1 = [Call.connected false] ++ failedRounds m.clientId k ++
                  [Call.connected true, Call.loop])
           ∨ (ev = MQTT_EVENT_CONENCTED
              ∧ newCalls m m1 = ([Call.connected false] ++ failedRounds m.clientId k ++
                  [Call.connected false]) ++
                  [Call.connect m.clientId true, Call.subscribe m.subscriptionTopic,
                   Call.loop])
           ∨ (ev = MQTT_EVENT_TIMEOUT ∧ k = 6
              ∧ newCalls m m1 = [Call.connected false] ++ failedRounds m.clientId k ++
                  [Call.connected false, Call.connect m.clientId false, Call.loop]))) := by
  unfold MQTTCLIENT.handle
  by_cases hc : (P.connected m.client).1 = true
  · simp only [hc, Bool.not_true, Bool.false_eq_true, if_false, Option.map_some']
    exact ⟨_, _, rfl, rfl, rfl, Or.inl ⟨rfl, newCalls_append _ _ _ (by simp)⟩⟩
  · simp only [Bool.not_eq_true] at hc
    simp only [hc, Bool.not_false, if_true, MQTTCLIENT.reconnect]
    obtain ⟨ev, t1, m1, hrun, hid, htop, k, hk, hshape⟩ := reconnectLoop_spec P 6 fuel
      { m with client := (P.connected m.client).2,
               calls := m.calls ++ [Call.connected false] } (by omega) (by decide)
    rw [hrun]
    simp only [Option.map_some']
    refine ⟨_, _, rfl, hid, htop, Or.inr ⟨k, hk, ?_⟩⟩
    rcases hshape with ⟨h1, _, h3⟩ | ⟨h1, _, h3⟩ | ⟨h1, h2, _, h4⟩
    · exact Or.inl ⟨h1, newCalls_append _ _ _ (by simp [h3])⟩
    · exact Or.inr (Or.inl ⟨h1, newCalls_append _ _ _ (by simp [h3])⟩)
    · exact Or.inr (Or.inr ⟨h1, h2, newCalls_append _ _ _ (by simp [h4])⟩)

/-- C2, at the failing input: on a transport that is never connected and
refuses every connection, `handle` returns MQTT_EVENT_TIMEOUT after 7 connect
attempts, not 6. -/
theorem handle_timeout_after_seven :
    (MQTTCLIENT.handle downTransport 7 (freshClient ())).map
      (fun r => (r.1, connectAttempts (newCalls (freshClient ()) r.2)))
      = some (MQTT_EVENT_TIMEOUT, 7) := by
  decide

/-- When every `connected()` poll and every connect attempt of a `handle` call
answers false, the call returns MQTT_EVENT_TIMEOUT after exactly 7 connect
attempts (the first one and 6 retries), having waited 6 times 5 s. -/
theorem handle_all_failed {τ : Type} (P : PubSubClient τ) (fuel : Nat) (m : MQTTCLIENT τ)
    (hf : 7 ≤ fuel)
    (hfail : ∀ r, MQTTCLIENT.handle P fuel m = some r → allFailed (newCalls m r.2) = true) :
    ∃ m1, MQTTCLIENT.handle P fuel m = some (MQTT_EVENT_TIMEOUT, m1)
      ∧ connectAttempts (newCalls m m1) = 7
      ∧ totalDelay (newCalls m m1) = 6 * 5000 := by
  obtain ⟨ev, m1, hrun, _, _, hshape⟩ := handle_spec P fuel m hf
  have hall := hfail _ hrun
  simp only at hall
  rcases hshape with ⟨_, h2⟩ | ⟨k, hk, ⟨_, h2⟩ | ⟨_, h2⟩ | ⟨h1, h2, h3⟩⟩
  · rw [h2] at hall
    simp [allFailed] at hall
  · rw [h2] at hall
    simp [allFailed, allFailed_append] at hall
  · rw [h2] at hall
    simp [allFailed, allFailed_append] at hall
  · subst h1 h2
    refine ⟨m1, hrun, ?_, ?_⟩
    · rw [h3]
      simp [connectAttempts_append, connectAttempts_failedRounds, connectAttempts]
    · rw [h3]
      simp [totalDelay_append, totalDelay_failedRounds, totalDelay]

theorem handle_all_failed_witness :
    7 ≤ 7 ∧ ∃ m1, MQTTCLIENT.handle downTransport 7 (freshClient ())
        = some (MQTT_EVENT_TIMEOUT, m1)
      ∧ connectAttempts (newCalls (freshClient ()) m1) = 7
      ∧ totalDelay (newCalls (freshClient ()) m1) = 6 * 5000 :=
  ⟨le_refl 7, handle_all_failed downTransport 7 (freshClient ()) (le_refl 7)
    (fun r hr => by cases hr; rfl)⟩

theorem replay_append {τ : Type} (P : PubSubClient τ) (a b : List Call) (t : τ) :
    P.replay (a ++ b) t = P.replay b (P.replay a t) := by
  induction a generalizing t with
  | nil => rfl
  | cons x l ih => cases x <;> simp [PubSubClient.replay, ih]

theorem answers_append {τ : Type} (P : PubSubClient τ) (a b : List Call) (t : τ) :
    P.answers (a ++ b) t = (P.answers a t && P.answers b (P.replay a t)) := by
  induction a generalizing t with
  | nil => simp [PubSubClient.answers, PubSubClient.replay]
  | cons x l ih => cases x <;> simp [PubSubClient.answers, PubSubClient.replay, ih, Bool.and_assoc]

/-- The record kept by the loop of `reconnect` is what the transport was given
and what it answered: the final transport state is the one the recorded calls
lead to, and every recorded answer is the transport's own. -/
theorem reconnectLoop_transport {τ : Type} (P : PubSubClient τ) :
    ∀ (fuel t : Nat) (m : MQTTCLIENT τ) (ev : MQTT_EVENT) (t1 : Nat) (m1 : MQTTCLIENT τ),
      MQTTCLIENT.reconnectLoop P fuel t m = some (ev, t1, m1) →
      ∃ l, m1.calls = m.calls ++ l ∧ m1.client = P.replay l m.client
        ∧ P.answers l m.client = true := by
  intro fuel
  induction fuel with
  | zero =>
    intro t m ev t1 m1 h
    simp [MQTTCLIENT.reconnectLoop] at h
  | succ f ih =>
    intro t m ev t1 m1 h
    rw [reconnectLoop_succ] at h
    split_ifs at h with hc ha h0
    · simp only [Option.some.injEq, Prod.mk.injEq] at h
      obtain ⟨_, _, rfl⟩ := h
      exact ⟨[Call.connected (P.connected m.client).1], rfl, rfl,
        by simp [PubSubClient.answers]⟩
    · simp only [Option.some.injEq, Prod.mk.injEq] at h
      obtain ⟨_, _, rfl⟩ := h
      exact ⟨[Call.connected (P.connected m.client).1,
          Call.connect m.clientId (P.connect m.clientId (P.connected m.client).2).1,
          Call.subscribe m.subscriptionTopic], by simp, rfl,
        by simp [PubSubClient.answers]⟩
    · simp only [Option.some.injEq, Prod.mk.injEq] at h
      obtain ⟨_, _, rfl⟩ := h
      exact ⟨[Call.connected (P.connected m.client).1,
          Call.connect m.clientId (P.connect m.clientId (P.connected m.client).2).1],
        by simp, rfl, by simp [PubSubClient.answers]⟩
    · obtain ⟨l, hl1, hl2, hl3⟩ := ih _ _ _ _ _ h
      refine ⟨[Call.connected (P.connected m.client).1,
          Call.connect m.clientId (P.connect m.clientId (P.connected m.client).2).1,
          Call.digitalWrite LED_PIN HIGH, Call.delay 2500,
          Call.digitalWrite LED_PIN LOW, Call.delay 2500] ++ l, ?_, ?_, ?_⟩
      · rw [hl1]; simp
      · rw [hl2, replay_append]; rfl
      · rw [answers_append]
        simp only [PubSubClient.answers, PubSubClient.replay, beq_self_eq_true, Bool.true_and]
        exact hl3

/-- The record kept by `handle` is what the transport was given and what it
answered. -/
theorem handle_transport {τ : Type} (P : PubSubClient τ) (fuel : Nat)
    (m : MQTTCLIENT τ) (ev : MQTT_EVENT) (m1 : MQTTCLIENT τ)
    (h : MQTTCLIENT.handle P fuel m = some (ev, m1)) :
    m1.client = P.replay (newCalls m m1) m.client
      ∧ P.answers (newCalls m m1) m.client = true := by
  unfold MQTTCLIENT.handle at h
  by_cases hc : (P.connected m.client).1 = true
  · simp only [hc, Bool.not_true, Bool.false_eq_true, if_false, Option.map_some',
      Option.some.injEq, Prod.mk.injEq] at h
    obtain ⟨_, rfl⟩ := h
    have hn : newCalls m
        { client := (P.loop (P.connected m.client).2).2, clientId := m.clientId,
          subscriptionTopic := m.subscriptionTopic,
          calls := m.calls ++ [Call.connected true] ++ [Call.loop] }
        = [Call.connected true, Call.loop] := newCalls_append _ _ _ (by simp)
    rw [hn]
    exact ⟨rfl, by simp [PubSubClient.answers, hc]⟩
  · simp only [Bool.not_eq_true] at hc
    simp only [hc, Bool.not_false, if_true, MQTTCLIENT.reconnect] at h
    cases hrun : MQTTCLIENT.reconnectLoop P fuel 6
        { m with client := (P.connected m.client).2,
                 calls := m.calls ++ [Call.connected false] } with
    | none => rw [hrun] at h; simp at h
    | some r =>
      obtain ⟨ev2, t2, m2⟩ := r
      rw [hrun] at h
      simp only [Option.map_some', Option.some.injEq, Prod.mk.injEq] at h
      obtain ⟨_, rfl⟩ := h
      obtain ⟨l, hl1, hl2, hl3⟩ := reconnectLoop_transport P _ _ _ _ _ _ hrun
      simp only at hl1 hl2 hl3
      have hn : newCalls m
          { client := (P.loop m2.client).2, clientId := m2.clientId,
            subscriptionTopic := m2.subscriptionTopic, calls := m2.calls ++ [Call.loop] }
          = [Call.connected false] ++ l ++ [Call.loop] :=
        newCalls_append _ _ _ (by simp [hl1])
      rw [hn]
      refine ⟨?_, ?_⟩
      · rw [replay_append, replay_append]
        simp only [PubSubClient.replay]
        rw [hl2]
      · rw [answers_append, answers_append]
        simp [PubSubClient.answers, PubSubClient.replay, hc, hl3]

/-- C3: with a topic recorded by `MQTTCLIENT::subscribe`, a `handle` call in
which a connect attempt succeeds returns MQTT_EVENT_CONENCTED and issues
exactly one transport subscribe, for that topic, right after the successful
connect: the transport state the call leaves is the one reached by
`subscribe(topic)` and then `loop()` from the state in which `connect`
answered true; the topic stays recorded. -/
theorem handle_resubscribes {τ : Type} (P : PubSubClient τ) (fuel : Nat) (topic : String)
    (m0 ms m : MQTTCLIENT τ)
    (hf : 7 ≤ fuel)
    (hsub : MQTTCLIENT.subscribe topic m0 = some ms)
    (htopic : m.subscriptionTopic = ms.subscriptionTopic)
    (hok : ∀ r, MQTTCLIENT.handle P fuel m = some r → someConnectOk (newCalls m r.2) = true) :
    ∃ m1 before, MQTTCLIENT.handle P fuel m = some (MQTT_EVENT_CONENCTED, m1)
      ∧ newCalls m m1 = before ++
          [Call.connect m.clientId true, Call.subscribe topic, Call.loop]
      ∧ someConnectOk before = false
      ∧ subscribeCalls before = 0
      ∧ subscribeCalls (newCalls m m1) = 1
      ∧ m1.subscriptionTopic = topic
      ∧ P.answers (newCalls m m1) m.client = true
      ∧ (P.connect m.clientId (P.replay before m.client)).1 = true
      ∧ m1.client = (P.loop (P.subscribe topic
          (P.connect m.clientId (P.replay before m.client)).2).2).2 := by
  have ht : m.subscriptionTopic = topic := by
    unfold MQTTCLIENT.subscribe at hsub
    split at hsub
    · cases hsub
      exact htopic
    · cases hsub
  obtain ⟨ev, m1, hrun, _, htop, hshape⟩ := handle_spec P fuel m hf
  have hany := hok _ hrun
  obtain ⟨htr1, htr2⟩ := handle_transport P fuel m ev m1 hrun
  simp only at hany
  rcases hshape with ⟨_, h2⟩ | ⟨k, hk, ⟨_, h2⟩ | ⟨h1, h2⟩ | ⟨_, _, h3⟩⟩
  · rw [h2] at hany
    simp [someConnectOk] at hany
  · rw [h2] at hany
    simp [someConnectOk, someConnectOk_append, someConnectOk_failedRounds] at hany
  · subst h1
    rw [ht] at h2 htop
    have hans := htr2
    rw [h2, answers_append] at hans
    simp only [PubSubClient.answers, PubSubClient.replay, Bool.and_eq_true, beq_iff_eq,
      and_true] at hans
    refine ⟨m1, _, hrun, h2, ?_, ?_, ?_, htop, htr2, hans.2.symm, ?_⟩
    · simp [someConnectOk, someConnectOk_append, someConnectOk_failedRounds]
    · simp [subscribeCalls, subscribeCalls_append, subscribeCalls_failedRounds]
    · rw [h2]
      simp [subscribeCalls, subscribeCalls_append, subscribeCalls_failedRounds]
    · rw [htr1, h2, replay_append]
      rfl
  · rw [h3] at hany
    simp [someConnectOk, someConnectOk_append, someConnectOk_failedRounds] at hany

theorem handle_resubscribes_witness :
    7 ≤ 7
    ∧ MQTTCLIENT.subscribe "mqtt-gps/cmd" (freshClient (some 2, ([] : List String)))
        = some (subscribedClient (some 2, []))
    ∧ (MQTTCLIENT.handle recordingTransport 7 (subscribedClient (some 2, []))).map
        (fun r => (r.1, r.2.client)) = some (MQTT_EVENT_CONENCTED, (none, ["mqtt-gps/cmd"]))
    ∧ ∃ m1 before,
      MQTTCLIENT.handle recordingTransport 7 (subscribedClient (some 2, []))
        = some (MQTT_EVENT_CONENCTED, m1)
      ∧ newCalls (subscribedClient (some 2, [])) m1 = before ++
          [Call.connect (subscribedClient (some 2, ([] : List String))).clientId true,
           Call.subscribe "mqtt-gps/cmd", Call.loop]
      ∧ someConnectOk before = false
      ∧ subscribeCalls before = 0
      ∧ subscribeCalls (newCalls (subscribedClient (some 2, [])) m1) = 1
      ∧ m1.subscriptionTopic = "mqtt-gps/cmd"
      ∧ recordingTransport.answers (newCalls (subscribedClient (some 2, [])) m1)
          (subscribedClient (some 2, ([] : List String))).client = true
      ∧ (recordingTransport.connect (subscribedClient (some 2, ([] : List String))).clientId
          (recordingTransport.replay before
            (subscribedClient (some 2, ([] : List String))).client)).1 = true
      ∧ m1.client = (recordingTransport.loop (recordingTransport.subscribe "mqtt-gps/cmd"
          (recordingTransport.connect (subscribedClient (some 2, ([] : List String))).clientId
            (recordingTransport.replay before
              (subscribedClient (some 2, ([] : List String))).client)).2).2).2 :=
  ⟨le_refl 7, rfl, by decide, handle_resubscribes recordingTransport 7 "mqtt-gps/cmd"
    (freshClient (some 2, [])) (subscribedClient (some 2, [])) (subscribedClient (some 2, []))
    (le_refl 7) rfl rfl (fun r hr => by cases hr; rfl)⟩

/-- C8, counterexample: on a transport that stays down, the `handle` call
that follows a call which returned MQTT_EVENT_TIMEOUT makes 7 connect attempts
again and returns MQTT_EVENT_TIMEOUT again. -/
theorem handle_retries_after_timeout :
    MQTTCLIENT.handle downTransport 7 (freshClient ())
      = some (MQTT_EVENT_TIMEOUT, timedOutClient)
    ∧ (MQTTCLIENT.handle downTransport 7 timedOutClient).map
        (fun r => (r.1, connectAttempts (newCalls timedOutClient r.2)))
      = some (MQTT_EVENT_TIMEOUT, 7) :=
  ⟨rfl, by decide⟩

/-- C8, amended: after a `handle` call has returned MQTT_EVENT_TIMEOUT, a later
`handle` call that finds the transport still disconnected (both `connected()`
polls answer false) makes a connect attempt straight away, under the same
client id, and `reconnect` starts again with its full counter: this later call
returns MQTT_EVENT_TIMEOUT only after 7 connect attempts and 6 waits of its
own, and it does so whenever all its polls and attempts fail. Nothing is
remembered of the earlier timeout. -/
theorem handle_after_timeout_connects {τ : Type} (P : PubSubClient τ) (fuel : Nat)
    (m0 m1 : MQTTCLIENT τ) (t : τ)
    (hf : 7 ≤ fuel)
    (h1 : MQTTCLIENT.handle P fuel m0 = some (MQTT_EVENT_TIMEOUT, m1))
    (hd1 : (P.connected t).1 = false)
    (hd2 : (P.connected (P.connected t).2).1 = false) :
    ∃ ev m2 rest,
      MQTTCLIENT.handle P fuel { m1 with client := t } = some (ev, m2)
      ∧ newCalls { m1 with client := t } m2 =
          [Call.connected false, Call.connected false,
           Call.connect m0.clientId (P.connect m0.clientId (P.connected (P.connected t).2).2).1]
            ++ rest
      ∧ 1 ≤ connectAttempts (newCalls { m1 with client := t } m2)
      ∧ m2.client = P.replay (newCalls { m1 with client := t } m2) t
      ∧ P.answers (newCalls { m1 with client := t } m2) t = true
      ∧ (ev = MQTT_EVENT_TIMEOUT →
          connectAttempts (newCalls { m1 with client := t } m2) = 7
          ∧ totalDelay (newCalls { m1 with client := t } m2) = 6 * 5000)
      ∧ (allFailed (newCalls { m1 with client := t } m2) = true →
          ev = MQTT_EVENT_TIMEOUT) := by
  have hid : m1.clientId = m0.clientId := by
    obtain ⟨_, _, hrun0, hid0, _, _⟩ := handle_spec P fuel m0 hf
    rw [h1] at hrun0
    simp only [Option.some.injEq, Prod.mk.injEq] at hrun0
    rw [hrun0.2]
    exact hid0
  obtain ⟨mm, hmm⟩ : ∃ mm : MQTTCLIENT τ, mm = { m1 with client := t } := ⟨_, rfl⟩
  have hcid : mm.clientId = m0.clientId := by rw [hmm]; exact hid
  have hcl : mm.client = t := by rw [hmm]
  rw [← hmm]
  obtain ⟨ev, m2, hrun, _, _, hshape⟩ := handle_spec P fuel mm hf
  obtain ⟨htr1, htr2⟩ := handle_transport P fuel mm ev m2 hrun
  rw [hcl] at htr1 htr2
  have hfirst : ∃ rest, newCalls mm m2 =
      [Call.connected false, Call.connected false,
       Call.connect m0.clientId (P.connect m0.clientId (P.connected (P.connected t).2).2).1]
        ++ rest := by
    have hrun2 := hrun
    obtain ⟨f, rfl⟩ : ∃ f, fuel = f + 1 := ⟨fuel - 1, by omega⟩
    simp only [MQTTCLIENT.handle, MQTTCLIENT.reconnect, hcl, hcid, hd1, Bool.not_false,
      if_true, reconnectLoop_succ, hd2, Bool.false_eq_true, if_false] at hrun2
    by_cases ha : (P.connect m0.clientId (P.connected (P.connected t).2).2).1 = true
    · simp only [ha, if_true, Option.map_some', Option.some.injEq, Prod.mk.injEq] at hrun2
      exact ⟨[Call.subscribe mm.subscriptionTopic, Call.loop],
        newCalls_append _ _ _ (by rw [← hrun2.2, ha]; simp)⟩
    · simp only [Bool.not_eq_true] at ha
      simp only [ha, Bool.false_eq_true, if_false, OfNat.ofNat_ne_zero] at hrun2
      have h65 : (6 + 255) % 256 = 5 := by decide
      rw [h65] at hrun2
      cases hloop : MQTTCLIENT.reconnectLoop P f 5
          { client := (P.connect m0.clientId (P.connected (P.connected t).2).2).2,
            clientId := m0.clientId, subscriptionTopic := mm.subscriptionTopic,
            calls := mm.calls ++ [Call.connected false] ++ [Call.connected false] ++
              [Call.connect m0.clientId false] ++
              [Call.digitalWrite LED_PIN HIGH, Call.delay 2500,
               Call.digitalWrite LED_PIN LOW, Call.delay 2500] } with
      | none => rw [hloop] at hrun2; simp at hrun2
      | some r =>
        obtain ⟨ev3, t3, m3⟩ := r
        rw [hloop] at hrun2
        simp only [Option.map_some', Option.some.injEq, Prod.mk.injEq] at hrun2
        obtain ⟨l, hl, _, _⟩ := reconnectLoop_transport P _ _ _ _ _ _ hloop
        simp only at hl
        exact ⟨[Call.digitalWrite LED_PIN HIGH, Call.delay 2500,
            Call.digitalWrite LED_PIN LOW, Call.delay 2500] ++ l ++ [Call.loop],
          newCalls_append _ _ _ (by rw [← hrun2.2, ha]; simp [hl])⟩
  obtain ⟨rest, hrest⟩ := hfirst
  refine ⟨ev, m2, rest, hrun, hrest, ?_, htr1, htr2, ?_, ?_⟩
  · rw [hrest]
    simp [connectAttempts]
  · intro hev
    rcases hshape with ⟨h, _⟩ | ⟨k, _, ⟨h, _⟩ | ⟨h, _⟩ | ⟨_, hk6, h2⟩⟩
    · rw [h] at hev; cases hev
    · rw [h] at hev; cases hev
    · rw [h] at hev; cases hev
    · subst hk6
      rw [h2]
      refine ⟨?_, ?_⟩
      · simp [connectAttempts_append, connectAttempts_failedRounds, connectAttempts]
      · simp [totalDelay_append, totalDelay_failedRounds, totalDelay]
  · intro hall
    rcases hshape with ⟨_, h2⟩ | ⟨k, _, ⟨_, h2⟩ | ⟨_, h2⟩ | ⟨hev, _, _⟩⟩
    · rw [h2] at hall
      simp [allFailed] at hall
    · rw [h2] at hall
      simp [allFailed, allFailed_append] at hall
    · rw [h2] at hall
      simp [allFailed, allFailed_append] at hall
    · exact hev

theorem handle_after_timeout_connects_witness :
    7 ≤ 7
    ∧ MQTTCLIENT.handle downTransport 7 (freshClient ())
        = some (MQTT_EVENT_TIMEOUT, timedOutClient)
    ∧ (downTransport.connected ()).1 = false
    ∧ ∃ ev m2 rest,
      MQTTCLIENT.handle downTransport 7 { timedOutClient with client := () } = some (ev, m2)
      ∧ newCalls { timedOutClient with client := () } m2 =
          [Call.connected false, Call.connected false,
           Call.connect (freshClient ()).clientId
            (downTransport.connect (freshClient ()).clientId
              (downTransport.connected (downTransport.connected ()).2).2).1] ++ rest
      ∧ 1 ≤ connectAttempts (newCalls { timedOutClient with client := () } m2)
      ∧ m2.client = downTransport.replay (newCalls { timedOutClient with client := () } m2) ()
      ∧ downTransport.answers (newCalls { timedOutClient with client := () } m2) () = true
      ∧ (ev = MQTT_EVENT_TIMEOUT →
          connectAttempts (newCalls { timedOutClient with client := () } m2) = 7
          ∧ totalDelay (newCalls { timedOutClient with client := () } m2) = 6 * 5000)
      ∧ (allFailed (newCalls { timedOutClient with client := () } m2) = true →
          ev = MQTT_EVENT_TIMEOUT) :=
  ⟨le_refl 7, rfl, rfl,
   handle_after_timeout_connects downTransport 7 (freshClient ()) timedOutClient ()
    (le_refl 7) rfl rfl rfl⟩

/-- C10, counterexample: when every connect attempt fails, `reconnect` leaves
its `uint8_t` counter at 255: the last `tries--`, taken at `tries == 0`, wraps. -/
theorem reconnect_tries_wraps :
    (MQTTCLIENT.reconnect downTransport 7 (freshClient ())).map (fun r => (r.1, r.2.1))
      = some (MQTT_EVENT_TIMEOUT, 255) := by
  decide

/-- C10, amended: whatever the transport answers, one call of `reconnect`
returns, after at most 7 connect attempts and at most 6 waits of 5 s; on every
exit other than the timeout exit `tries` ends within 0..6, one below 6 for each
wait made. -/
theorem reconnect_terminates {τ : Type} (P : PubSubClient τ) (fuel : Nat) (m : MQTTCLIENT τ)
    (hf : 7 ≤ fuel) :
    ∃ ev tries m1, MQTTCLIENT.reconnect P fuel m = some (ev, tries, m1)
      ∧ connectAttempts (newCalls m m1) ≤ 7
      ∧ totalDelay (newCalls m m1) ≤ 6 * 5000
      ∧ (ev ≠ MQTT_EVENT_TIMEOUT →
          tries ≤ 6 ∧ totalDelay (newCalls m m1) = 5000 * (6 - tries)) := by
  obtain ⟨ev, t1, m1, hrun, _, _, k, hk, hshape⟩ :=
    reconnectLoop_spec P 6 fuel m (by omega) (by decide)
  refine ⟨ev, t1, m1, hrun, ?_⟩
  rcases hshape with ⟨_, h2, h3⟩ | ⟨_, h2, h3⟩ | ⟨h1, h2, _, h4⟩
  · rw [newCalls_append _ _ _ h3]
    have hk2 : k = 6 - t1 := by omega
    refine ⟨?_, ?_, fun _ => ⟨by omega, ?_⟩⟩
    · simp [connectAttempts_append, connectAttempts_failedRounds, connectAttempts]
      omega
    · simp [totalDelay_append, totalDelay_failedRounds, totalDelay]
      omega
    · simp [totalDelay_append, totalDelay_failedRounds, totalDelay, hk2]
  · rw [newCalls_append _ _ _ h3]
    have hk2 : k = 6 - t1 := by omega
    refine ⟨?_, ?_, fun _ => ⟨by omega, ?_⟩⟩
    · simp [connectAttempts_append, connectAttempts_failedRounds, connectAttempts]
      omega
    · simp [totalDelay_append, totalDelay_failedRounds, totalDelay]
      omega
    · simp [totalDelay_append, totalDelay_failedRounds, totalDelay, hk2]
  · rw [newCalls_append _ _ _ h4]
    subst h2
    refine ⟨?_, ?_, fun hne => absurd h1 hne⟩
    · simp [connectAttempts_append, connectAttempts_failedRounds, connectAttempts]
    · simp [totalDelay_append, totalDelay_failedRounds, totalDelay]

theorem reconnect_terminates_witness :
    7 ≤ 9 ∧ ∃ ev tries m1,
      MQTTCLIENT.reconnect flakyTransport 9 (subscribedClient (some 3)) = some (ev, tries, m1)
      ∧ connectAttempts (newCalls (subscribedClient (some 3)) m1) ≤ 7
      ∧ totalDelay (newCalls (subscribedClient (some 3)) m1) ≤ 6 * 5000
      ∧ (ev ≠ MQTT_EVENT_TIMEOUT →
          tries ≤ 6
          ∧ totalDelay (newCalls (subscribedClient (some 3)) m1) = 5000 * (6 - tries)) :=
  ⟨by decide, reconnect_terminates flakyTransport 9 (subscribedClient (some 3)) (by decide)⟩

end MqttGps
